import Mathlib

/-!
Verification of the lampshade transport core (dialer, send buffer, receive
buffer) against its natural-language specification.  The Go source is
shallowly embedded: pure control flow becomes Lean functions, channel and
mutex interactions become explicit state passing, and the background send
loop becomes a fuel-indexed step function parametrised by the scheduler's
choices at every nondeterministic `select`.  Machine integers are modelled
as `Nat` (all quantities involved are non-negative and far below overflow;
where a Go bound matters, e.g. `uint32`, it appears as an explicit
hypothesis).  `time.Time` values are modelled as `Nat` instants where `0`
is the zero time (`IsZero`) and `d < now` is `d.Before(now)`.
-/

namespace Lampshade

/-! ### Frame constants

From the protocol documentation in the source: message type 0 = data,
1 = ack, 2 = rst; a frame header is 1 type byte + 3 stream-id bytes, and a
data frame additionally carries a 2-byte length, so a data frame's header
region is 6 bytes. -/

def frameTypeData : Nat := 0

def frameTypeACK : Nat := 1

def frameTypeRST : Nat := 2

def headerSize : Nat := 4

def dataHeaderSize : Nat := 6

/-- Modelled from the spec: `maxID` lives in the repository's frames file,
which is not among the provided sources.  Per the spec's data model the
stream identifier is an unsigned 24-bit integer whose maximum permitted
value is `2 ^ 24 - 1`. -/
def maxID : Nat := 2 ^ 24 - 1

/-- Modelled from the spec: `withFrameType` lives in the repository's frames
file, which is not among the provided sources.  Per the spec a header is a
1-byte type followed by the 3-byte stream id, and the writer overwrites the
type byte per frame; `withFrameType` returns a copy of the header with the
type byte replaced. -/
def withFrameType (header : List Nat) (t : Nat) : List Nat :=
  t :: header.drop 1

/-- Modelled from the spec: `ackWithFrames` lives in the repository's frames
file, which is not among the provided sources.  Per the spec an ACK frame is
a control header (type 1 plus the 3-byte stream id) whose tail carries the
frame count as a signed 16-bit big-endian value; the low 16 bits of the
count are encoded (`int16` cast in the source). -/
def ackWithFrames (header : List Nat) (n : Nat) : List Nat :=
  frameTypeACK :: header.drop 1 ++ [n / 256 % 256, n % 256]

/-! ### Dialer (dialer.go)

`dialer.dial` under the assumption that `startSession` succeeds.  Sessions
are named by a fresh counter `nextSess`; a physical connection corresponds
1-to-1 with a session, so two streams share an underlying connection
exactly when their session numbers agree.  `current = none` models both the
initial state and the state after `sessionClosed` cleared the slot. -/

structure DialerM where
  maxStreamPerConn : Nat
  current : Option Nat
  id : Nat
  nextSess : Nat
deriving DecidableEq, Repr

/-- `StreamDialer`'s clamp of `maxStreamsPerConn` (a `uint32`, so `<= 0`
means `= 0`): values `0` or above `maxID` become `maxID`. -/
def streamDialerClamp (m : Nat) : Nat :=
  if m = 0 ∨ maxID < m then maxID else m

/-- `StreamDialer`: the freshly constructed dialer state. -/
def streamDialerM (m : Nat) : DialerM :=
  { maxStreamPerConn := streamDialerClamp m, current := none, id := 0, nextSess := 0 }

/-- `dialer.dial`, success path: returns `((session, streamID), dialer')`.
Mirrors the source: capture `current`, test `d.id > d.maxStreamPerConn`
(resetting `d.id` to 0 on exhaustion), start a new session when there is no
current session or ids are exhausted, then mint `d.id` and increment it. -/
def dialM (d : DialerM) : (Nat × Nat) × DialerM :=
  let idsExhausted : Bool := d.maxStreamPerConn < d.id
  let d1 := if idsExhausted then { d with id := 0 } else d
  if d1.current.isNone || idsExhausted then
    let s := d1.nextSess
    let d2 := { d1 with current := some s, nextSess := d1.nextSess + 1 }
    ((s, d2.id), { d2 with id := d2.id + 1 })
  else
    ((d1.current.getD 0, d1.id), { d1 with id := d1.id + 1 })

/-! ### Dialer lock discipline (dialer.go)

`dial`/`startSession` with the mutex made explicit.  Each fallible step of
`startSession` (connector, AES secret, the two IVs, client init message,
the two ciphers) is represented by a boolean of the environment telling
whether it succeeds; `LockState` counts the lock depth and the number of
`Unlock` calls performed during the `dial` call. -/

inductive DialErrKind
  | connect
  | secret
  | sendIV
  | recvIV
  | initMsg
  | decrypt
  | encrypt
deriving DecidableEq, Repr

structure DialEnv where
  doDialOk : Bool
  secretOk : Bool
  sendIVOk : Bool
  recvIVOk : Bool
  initMsgOk : Bool
  decryptOk : Bool
  encryptOk : Bool
deriving DecidableEq, Repr

structure LockState where
  locked : Nat
  unlocks : Nat
deriving DecidableEq, Repr

def mxLock (s : LockState) : LockState :=
  { s with locked := s.locked + 1 }

def mxUnlock (s : LockState) : LockState :=
  { locked := s.locked - 1, unlocks := s.unlocks + 1 }

/-- `dialer.startSession`: unlocks the mutex on the connector-failure branch
only; every later failure branch returns with the lock state untouched,
exactly as in the source. -/
def startSessionLM (e : DialEnv) (s : LockState) : Except DialErrKind Unit × LockState :=
  if !e.doDialOk then (.error .connect, mxUnlock s)
  else if !e.secretOk then (.error .secret, s)
  else if !e.sendIVOk then (.error .sendIV, s)
  else if !e.recvIVOk then (.error .recvIV, s)
  else if !e.initMsgOk then (.error .initMsg, s)
  else if !e.decryptOk then (.error .decrypt, s)
  else if !e.encryptOk then (.error .encrypt, s)
  else (.ok (), s)

/-- `dialer.dial`, lock view: locks on entry; when a new session is needed
and `startSession` fails, `dial` returns the error immediately (performing
no unlock of its own); on success it unlocks once before returning. -/
def dialLM (needNewSession : Bool) (e : DialEnv) (s : LockState) :
    Except DialErrKind Unit × LockState :=
  let s1 := mxLock s
  if needNewSession then
    match startSessionLM e s1 with
    | (.error k, s2) => (.error k, s2)
    | (.ok _, s2) => (.ok (), mxUnlock s2)
  else (.ok (), mxUnlock s1)

/-! ### Send loop (sendbuffer.go, `sendBuffer.sendLoop`)

The loop is embedded as a fuel-indexed step function over a state holding
the contents of the `in` channel (`queue`), whether `in` has been closed by
`signalClose` (`inClosed`), the pending value of the one-slot
`closeRequested` channel (`closeReq`), the `sendRST` flag and the list of
frames written to the session writer channel so far (`out`).

The model covers the regime in which the drain completes within the
30-second budget: `window.sub(1)` completes promptly and `closeTimedOut`
never fires.  Nondeterminism of Go's `select` is made explicit: `s1` picks
between a ready `in` receive and a ready `closeRequested` receive in the
outer select, `s2` picks between a ready window acquisition and a ready
`closeRequested` receive in the inner select (both indexed by remaining
fuel). -/

structure SLState where
  queue : List (List Nat)
  inClosed : Bool
  closeReq : Option Bool
  sendRST : Bool
  out : List (List Nat)
deriving DecidableEq, Repr

/-- The frames appended by the loop's deferred function: a single RST frame
when `sendRST` was requested, nothing otherwise. -/
def rstTail (header : List Nat) (sendRST : Bool) : List (List Nat) :=
  if sendRST then [withFrameType header frameTypeRST] else []

/-- Receiving from `closeRequested` followed by `signalClose`: record the
requested RST flag, empty the one-slot channel, and seal the `in` queue. -/
def slTakeClose (st : SLState) : SLState :=
  { st with sendRST := st.closeReq.getD false, closeReq := none, inClosed := true }

inductive SLResult
  | terminated (out : List (List Nat))
  | blocked (st : SLState)
  | fuelOut (st : SLState)
deriving DecidableEq, Repr

/-- One run of `sendBuffer.sendLoop` under schedules `s1`, `s2`.  A receive
from `in` while the queue is empty and sealed yields `(nil, false)` and the
loop returns, emitting the deferred RST tail; a payload receive writes
`frame ++ defaultHeader` (the source's `append(frame, buf.defaultHeader...)`)
to the out channel. -/
def slRun (header : List Nat) (s1 s2 : Nat → Bool) : Nat → SLState → SLResult
  | 0, st => .fuelOut st
  | fuel + 1, st =>
    let inReady : Bool := !st.queue.isEmpty || st.inClosed
    let crReady : Bool := st.closeReq.isSome
    if crReady && (!inReady || s1 fuel) then
      slRun header s1 s2 fuel (slTakeClose st)
    else if inReady then
      match st.queue with
      | [] => .terminated (st.out ++ rstTail header st.sendRST)
      | f :: rest =>
        let st1 := { st with queue := rest }
        let st2 := if st1.closeReq.isSome && s2 fuel then slTakeClose st1 else st1
        slRun header s1 s2 fuel { st2 with out := st2.out ++ [f ++ header] }
    else .blocked st

/-! ### Send buffer `send`/`doSend` (sendbuffer.go)

`doSend` in isolation (no concurrent consumer): the `in` channel admits the
payload exactly when fewer than `capacity` (= `windowSize`) frames are
buffered.  With a zero deadline a full queue makes the call block without
any timeout (`blocks`); with a non-zero future deadline and a full queue the
write timer fires (`ErrTimeout`).  At `deadline = now` the source's select
races the just-reset timer against the channel; the model resolves that
race toward the channel when space is available. -/

inductive GoErr
  | errTimeout
  | eof
  | epipe
deriving DecidableEq, Repr

structure SBuf where
  closing : Bool
  queue : List (List Nat)
  capacity : Nat
deriving DecidableEq, Repr

inductive SendOutcome
  | ok (n : Nat)
  | err (e : GoErr)
  | blocks
deriving DecidableEq, Repr

/-- `sendBuffer.doSend` (and hence `send`, which merely brackets it with the
read side of `muClosing`). -/
def doSendM (buf : SBuf) (b : List Nat) (deadline now : Nat) : SendOutcome × SBuf :=
  if buf.closing then (.err .epipe, buf)
  else if deadline = 0 then
    if buf.queue.length < buf.capacity then (.ok b.length, { buf with queue := buf.queue ++ [b] })
    else (.blocks, buf)
  else if deadline < now then (.err .errTimeout, buf)
  else if buf.queue.length < buf.capacity then (.ok b.length, { buf with queue := buf.queue ++ [b] })
  else (.err .errTimeout, buf)

/-! ### Send buffer close and the write timer (sendbuffer.go) -/

/-- A `time.Timer`: `active` means running and not yet fired; `firedPending`
means it fired and the value still sits in its channel.  The send buffer's
write timer is created with `largeTimeout`, so within any close scenario it
never fires on its own. -/
structure GoTimer where
  active : Bool
  firedPending : Bool
deriving DecidableEq, Repr

/-- The source idiom `if !t.Stop() { <-t.C }`: when the timer was active,
`Stop` succeeds and nothing is drained; when it already fired, the pending
value is drained; when it was already stopped and never fired, the receive
on the empty channel blocks forever (`none`). -/
def stopDrainTimer (t : GoTimer) : Option GoTimer :=
  if t.active then some { active := false, firedPending := t.firedPending }
  else if t.firedPending then some { active := false, firedPending := false }
  else none

structure SBufLife where
  timer : GoTimer
  closeReqSlot : Bool
  loopDone : Bool
deriving DecidableEq, Repr

/-- `newSendBuffer`'s lifecycle state: fresh write timer armed with
`largeTimeout`, empty `closeRequested` slot, send loop running. -/
def newSendBufferLife : SBufLife :=
  { timer := { active := true, firedPending := false }, closeReqSlot := false, loopDone := false }

/-- `sendBuffer.close`: offer the RST flag to the one-slot `closeRequested`
channel (never blocking), run the stop-and-drain idiom on the write timer
(`none` when that receive blocks forever), then wait for the send loop; if
the loop was still running it consumes the close request and terminates
(drain within budget). -/
def closeSBM (b : SBufLife) : Option SBufLife :=
  let b1 := { b with closeReqSlot := true }
  match stopDrainTimer b1.timer with
  | none => none
  | some t =>
    if b1.loopDone then some { b1 with timer := t }
    else some { timer := t, closeReqSlot := false, loopDone := true }

/-! ### Receive buffer (sendbuffer.go, second part)

`receiveBuffer.read` in isolation (no concurrent `submit`): the `in`
channel is a queue plus a sealed flag.  The ghost `events` list records the
value of `current` at each `onFrame` call (i.e. whenever a frame is
dequeued and replaces `current`, incrementing `unacked`). -/

inductive ReadOutcome
  | ret (totalN : Nat) (err : Option GoErr)
  | blocks
deriving DecidableEq, Repr

structure ReadGoRes where
  outcome : ReadOutcome
  current : List Nat
  queue : List (List Nat)
  unacked : Nat
  events : List (List Nat)
deriving DecidableEq, Repr

/-- The loop body of `receiveBuffer.read` (everything except the deferred
ACK flush).  `blen` is the remaining length of the caller's buffer.  A
receive from the sealed, drained `in` yields EOF; with data already copied
and nothing immediately available the call returns; with nothing copied it
waits: forever on a zero deadline (`blocks`, the source substitutes
`largeDeadline`), not at all on a deadline strictly in the past (plain
return), and until the timer fires otherwise (`ErrTimeout`, as no frame
arrives in this single-caller model). -/
def readGo (current : List Nat) (queue : List (List Nat)) (inClosed : Bool)
    (unacked blen totalN deadline now : Nat) (events : List (List Nat)) : ReadGoRes :=
  match queue with
  | [] =>
    let n := min blen current.length
    let cur := current.drop n
    let total := totalN + n
    if n = blen then ⟨.ret total none, cur, [], unacked, events⟩
    else if inClosed then ⟨.ret total (some .eof), cur, [], unacked, events⟩
    else if 0 < total then ⟨.ret total none, cur, [], unacked, events⟩
    else if deadline = 0 then ⟨.blocks, cur, [], unacked, events⟩
    else if deadline < now then ⟨.ret total none, cur, [], unacked, events⟩
    else ⟨.ret total (some .errTimeout), cur, [], unacked, events⟩
  | f :: rest =>
    let n := min blen current.length
    let cur := current.drop n
    let total := totalN + n
    if n = blen then ⟨.ret total none, cur, f :: rest, unacked, events⟩
    else
      readGo (f.drop dataHeaderSize) rest inClosed (unacked + 1) (blen - n) total
        deadline now (events ++ [cur])

structure RBuf where
  defaultHeader : List Nat
  windowSize : Nat
  ackInterval : Nat
  unacked : Nat
  queue : List (List Nat)
  inClosed : Bool
  current : List Nat
  closed : Bool
deriving DecidableEq, Repr

/-- The ack interval computed by `newReceiveBuffer`:
`int(math.Ceil(float64(windowSize) / 10))`, exact over the integers
(`float64` division by 10 is exact to well beyond the `int` ranges in
play). -/
def ackIntervalOf (w : Nat) : Nat := (w + 9) / 10

/-- `newReceiveBuffer`. -/
def newReceiveBufferM (header : List Nat) (w : Nat) : RBuf :=
  { defaultHeader := header, windowSize := w, ackInterval := ackIntervalOf w,
    unacked := 0, queue := [], inClosed := false, current := [], closed := false }

/-- The deferred function of `receiveBuffer.read`: when `unacked` has
reached the ack interval, push one ACK carrying the unacked count and reset
the counter.  Returns the updated buffer and the list of ACK frames pushed
onto the session's outbound ACK channel. -/
def readFinish (buf : RBuf) : RBuf × List (List Nat) :=
  if buf.ackInterval ≤ buf.unacked then
    ({ buf with unacked := 0 }, [ackWithFrames buf.defaultHeader buf.unacked])
  else (buf, [])

/-- `receiveBuffer.read`: the loop, then (on return, not when blocked) the
deferred ACK flush. -/
def readM (buf : RBuf) (blen deadline now : Nat) : ReadOutcome × RBuf × List (List Nat) :=
  let r := readGo buf.current buf.queue buf.inClosed buf.unacked blen 0 deadline now []
  let buf1 := { buf with current := r.current, queue := r.queue, unacked := r.unacked }
  match r.outcome with
  | .blocks => (.blocks, buf1, [])
  | .ret n e =>
    let p := readFinish buf1
    (.ret n e, p.1, p.2)

/-- `receiveBuffer.close`: guarded by the closed flag, seals `in` at most
once. -/
def closeRBM (buf : RBuf) : RBuf :=
  if buf.closed then buf else { buf with closed := true, inClosed := true }

/-- The value of the unacked counter at the moment `read` returns, before
the deferred ACK flush runs. -/
def readUnackedAtReturn (buf : RBuf) (blen deadline now : Nat) : Nat :=
  (readGo buf.current buf.queue buf.inClosed buf.unacked blen 0 deadline now []).unacked

/-! ## Helper lemmas -/

/-- Once `in` is sealed and no close request is pending, the send loop
drains the remaining queued payloads in order (each with the default header
appended after the payload), emits the RST tail and terminates — for every
schedule. -/
theorem slRun_inClosed (header : List Nat) (s1 s2 : Nat → Bool) :
    ∀ (queue : List (List Nat)) (fuel : Nat) (out : List (List Nat)) (rst : Bool),
      queue.length < fuel →
      slRun header s1 s2 fuel ⟨queue, true, none, rst, out⟩
        = .terminated (out ++ queue.map (· ++ header) ++ rstTail header rst) := by
  intro queue
  induction queue with
  | nil =>
    intro fuel out rst hfuel
    match fuel, hfuel with
    | fuel + 1, _ => simp [slRun]
  | cons f rest ih =>
    intro fuel out rst hfuel
    match fuel, hfuel with
    | fuel + 1, hfuel =>
      have h1 : rest.length < fuel := by simpa using Nat.lt_of_succ_lt_succ hfuel
      have step : slRun header s1 s2 (fuel + 1) ⟨f :: rest, true, none, rst, out⟩
          = slRun header s1 s2 fuel ⟨rest, true, none, rst, out ++ [f ++ header]⟩ := by
        simp [slRun]
      rw [step, ih fuel (out ++ [f ++ header]) rst h1]
      simp

/-- With a close request pending (RST flag `rst`) and `in` still open, the
send loop — for every schedule — eventually consumes the request, drains
all queued payloads in order, emits the RST tail and terminates. -/
theorem slRun_closeReq (header : List Nat) (s1 s2 : Nat → Bool) :
    ∀ (queue : List (List Nat)) (fuel : Nat) (out : List (List Nat)) (rst b0 : Bool),
      queue.length + 1 < fuel →
      slRun header s1 s2 fuel ⟨queue, false, some rst, b0, out⟩
        = .terminated (out ++ queue.map (· ++ header) ++ rstTail header rst) := by
  intro queue
  induction queue with
  | nil =>
    intro fuel out rst b0 hfuel
    match fuel, hfuel with
    | fuel + 1, hfuel =>
      have h1 : ([] : List (List Nat)).length < fuel := by simp; omega
      have step : slRun header s1 s2 (fuel + 1) ⟨[], false, some rst, b0, out⟩
          = slRun header s1 s2 fuel ⟨[], true, none, rst, out⟩ := by
        simp [slRun, slTakeClose]
      rw [step, slRun_inClosed header s1 s2 [] fuel out rst h1]
  | cons f rest ih =>
    intro fuel out rst b0 hfuel
    match fuel, hfuel with
    | fuel + 1, hfuel =>
      have hrest : rest.length < fuel := by
        simp only [List.length_cons] at hfuel; omega
      have hrest1 : (f :: rest).length < fuel := by
        simp only [List.length_cons] at hfuel ⊢; omega
      by_cases hs1 : s1 fuel
      · have step : slRun header s1 s2 (fuel + 1) ⟨f :: rest, false, some rst, b0, out⟩
            = slRun header s1 s2 fuel ⟨f :: rest, true, none, rst, out⟩ := by
          simp [slRun, slTakeClose, hs1]
        rw [step, slRun_inClosed header s1 s2 (f :: rest) fuel out rst hrest1]
      · by_cases hs2 : s2 fuel
        · have step : slRun header s1 s2 (fuel + 1) ⟨f :: rest, false, some rst, b0, out⟩
              = slRun header s1 s2 fuel ⟨rest, true, none, rst, out ++ [f ++ header]⟩ := by
            simp [slRun, slTakeClose, hs1, hs2]
          rw [step, slRun_inClosed header s1 s2 rest fuel (out ++ [f ++ header]) rst hrest]
          simp
        · have step : slRun header s1 s2 (fuel + 1) ⟨f :: rest, false, some rst, b0, out⟩
              = slRun header s1 s2 fuel ⟨rest, false, some rst, b0, out ++ [f ++ header]⟩ := by
            simp [slRun, slTakeClose, hs1, hs2]
          have hfuel2 : rest.length + 1 < fuel := by
            simp only [List.length_cons] at hfuel; omega
          rw [step, ih fuel (out ++ [f ++ header]) rst b0 hfuel2]
          simp

/-- `readGo` appends one event per dequeued frame, each recording an empty
previous `current`, and increments `unacked` once per dequeued frame. -/
theorem readGo_events (queue : List (List Nat)) :
    ∀ (current : List Nat) (inClosed : Bool) (unacked blen totalN deadline now : Nat)
      (events : List (List Nat)),
      ∃ k, (readGo current queue inClosed unacked blen totalN deadline now events).events
             = events ++ List.replicate k ([] : List Nat)
         ∧ (readGo current queue inClosed unacked blen totalN deadline now events).unacked
             = unacked + k := by
  induction queue with
  | nil =>
    intro current inClosed unacked blen totalN deadline now events
    refine ⟨0, ?_, ?_⟩ <;>
      (simp only [readGo]; split_ifs <;> simp)
  | cons f rest ih =>
    intro current inClosed unacked blen totalN deadline now events
    by_cases hn : min blen current.length = blen
    · refine ⟨0, ?_, ?_⟩ <;> simp [readGo, hn]
    · have hmin : min blen current.length = current.length := by
        rcases Nat.le_total blen current.length with h | h
        · exact absurd (Nat.min_eq_left h) hn
        · exact Nat.min_eq_right h
      have hcur : current.drop (min blen current.length) = [] := by
        rw [hmin]; simp
      have step : readGo current (f :: rest) inClosed unacked blen totalN deadline now events
          = readGo (f.drop dataHeaderSize) rest inClosed (unacked + 1)
              (blen - min blen current.length) (totalN + min blen current.length)
              deadline now (events ++ [[]]) := by
        simp only [readGo]
        rw [if_neg hn, hcur]
      rw [step]
      obtain ⟨k, hk1, hk2⟩ := ih (f.drop dataHeaderSize) inClosed (unacked + 1)
        (blen - min blen current.length) (totalN + min blen current.length)
        deadline now (events ++ [[]])
      refine ⟨k + 1, ?_, ?_⟩
      · rw [hk1]
        simp [List.replicate_succ, List.append_assoc]
      · rw [hk2]; omega

/-- `(w + 9) / 10` over `Nat` is the ceiling of `w / 10`. -/
theorem ceilDiv10 (w : Nat) : (((w + 9) / 10 : Nat) : ℤ) = ⌈(w : ℚ) / 10⌉ := by
  have h1 : w ≤ 10 * ((w + 9) / 10) := by omega
  have h2 : 10 * ((w + 9) / 10) < w + 10 := by omega
  have h1q : (w : ℚ) ≤ 10 * (((w + 9) / 10 : Nat) : ℚ) := by exact_mod_cast h1
  have h2q : 10 * (((w + 9) / 10 : Nat) : ℚ) < (w : ℚ) + 10 := by exact_mod_cast h2
  rw [eq_comm, Int.ceil_eq_iff]
  simp only [Int.cast_natCast]
  constructor
  · rw [lt_div_iff₀ (by norm_num : (0 : ℚ) < 10)]
    linarith
  · rw [div_le_iff₀ (by norm_num : (0 : ℚ) < 10)]
    linarith

/-! ## Claim theorems -/

/-- C1 counterexample: with max-streams-per-session = 2 the third stream
dialed in sequence does NOT open a new underlying connection — it lands on
the same session (hence the same physical connection) as streams 1 and 2,
because ids are 0-based and rotation only triggers once the next id would
exceed the maximum. -/
theorem C1_counterexample :
    (dialM (dialM (dialM (streamDialerM 2)).2).2).1.1 = (dialM (streamDialerM 2)).1.1 ∧
    (dialM (dialM (dialM (streamDialerM 2)).2).2).1.1
      = (dialM (dialM (streamDialerM 2)).2).1.1 := by
  decide

/-- C1 (amended): for a dialer configured with max-streams-per-session = 2,
streams 1, 2 and 3 share one session (one underlying connection) and
stream 4 opens a new one; in general a dial starts a new session exactly
when there is no current session (none yet, or the previous one signaled
closed and was cleared) or when the id the new stream would take exceeds
the configured maximum. -/
theorem C1_session_rotation :
    ((dialM (streamDialerM 2)).1.1 = 0 ∧
     (dialM (dialM (streamDialerM 2)).2).1.1 = 0 ∧
     (dialM (dialM (dialM (streamDialerM 2)).2).2).1.1 = 0 ∧
     (dialM (dialM (dialM (dialM (streamDialerM 2)).2).2).2).1.1 = 1) ∧
    (∀ d : DialerM, (dialM d).2.nextSess = d.nextSess + 1
        ↔ (d.current = none ∨ d.maxStreamPerConn < d.id)) := by
  constructor
  · decide
  · intro d
    by_cases h1 : d.maxStreamPerConn < d.id
    · simp [dialM, h1]
    · by_cases h2 : d.current = none
      · simp [dialM, h1, h2]
      · simp [dialM, h1, h2, Option.isNone_iff_eq_none]

/-- C2 counterexample: the frame forwarded to the session writer channel is
the payload followed by the default header, not the header followed by the
payload: with default header `[0,0,0,5]` and payload `[42]` the loop
forwards `[42,0,0,0,5]`, which differs from `[0,0,0,5,42]`. -/
theorem C2_counterexample :
    slRun [0, 0, 0, 5] (fun _ => false) (fun _ => false) 3
        ⟨[[42]], false, some false, false, []⟩
      = .terminated [[42, 0, 0, 0, 5]] ∧
    ([[42, 0, 0, 0, 5]] : List (List Nat)) ≠ [[0, 0, 0, 5, 42]] := by
  decide

/-- C2 (amended): for every payload the send loop takes from the in-queue,
the frame forwarded to the session writer channel consists of the payload
followed by the default header — payload bytes first, then header bytes —
under every schedule. -/
theorem C2_payload_then_header (header : List Nat) (s1 s2 : Nat → Bool)
    (payloads : List (List Nat)) :
    slRun header s1 s2 (payloads.length + 2) ⟨payloads, false, some false, false, []⟩
      = .terminated (payloads.map (fun p => p ++ header)) := by
  have h := slRun_closeReq header s1 s2 payloads (payloads.length + 2) [] false false (by omega)
  simpa [rstTail] using h

/-- C3 counterexample: `receiveBuffer.read` with a non-zero deadline
strictly in the past (and nothing buffered) returns zero bytes with NO
error, not `ErrTimeout`. -/
theorem C3_counterexample :
    (readM ⟨[0, 0, 0, 1], 10, 1, 0, [], false, [], false⟩ 1 5 10).1 = .ret 0 none ∧
    (ReadOutcome.ret 0 none) ≠ .ret 0 (some .errTimeout) := by
  decide

/-- C3 (amended): `sendBuffer.send` with a non-zero deadline strictly in
the past (buffer not closing) fails immediately with `ErrTimeout` and
enqueues nothing; `receiveBuffer.read` with nothing buffered and a non-zero
deadline strictly in the past returns immediately with zero bytes and no
error. -/
theorem C3_past_deadline (sbuf : SBuf) (b : List Nat) (rbuf : RBuf) (blen d now : Nat) :
    (sbuf.closing = false → d ≠ 0 → d < now →
        doSendM sbuf b d now = (.err .errTimeout, sbuf)) ∧
    (rbuf.current = [] → rbuf.queue = [] → rbuf.inClosed = false → 0 < blen →
        d ≠ 0 → d < now → (readM rbuf blen d now).1 = .ret 0 none) := by
  constructor
  · intro h1 h2 h3
    simp [doSendM, h1, h2, h3]
  · intro h1 h2 h3 h4 h5 h6
    have h0 : (0 : Nat) ≠ blen := by omega
    simp [readM, readGo, readFinish, h1, h2, h3, h5, h6, h0]

theorem C3_past_deadline_witness :
    doSendM ⟨false, [], 25⟩ [1, 2] 5 10 = (.err .errTimeout, ⟨false, [], 25⟩) ∧
    (readM ⟨[0, 0, 0, 2], 10, 1, 0, [], false, [], false⟩ 2 5 10).1 = .ret 0 none := by
  have h := C3_past_deadline ⟨false, [], 25⟩ [1, 2]
    ⟨[0, 0, 0, 2], 10, 1, 0, [], false, [], false⟩ 2 5 10
  exact ⟨h.1 rfl (by decide) (by decide), h.2 rfl rfl rfl (by decide) (by decide) (by decide)⟩

/-- C4 code-bug evidence: `dial()` releases the dialer mutex exactly once
on the success path and on the connector-failure path (`locked` back to 0,
one unlock), but when `startSession` fails after the connector succeeded —
AES-secret generation shown here, and likewise the IVs, the init message
and the ciphers — `dial` returns with the mutex still held: `locked = 1`
and zero unlocks, contradicting the claim that every failure branch
unlocks exactly once. -/
theorem C4_lock_leak :
    dialLM true ⟨true, true, true, true, true, true, true⟩ ⟨0, 0⟩ = (.ok (), ⟨0, 1⟩) ∧
    dialLM true ⟨false, true, true, true, true, true, true⟩ ⟨0, 0⟩ = (.error .connect, ⟨0, 1⟩) ∧
    dialLM true ⟨true, false, true, true, true, true, true⟩ ⟨0, 0⟩ = (.error .secret, ⟨1, 0⟩) ∧
    dialLM true ⟨true, true, true, true, false, true, true⟩ ⟨0, 0⟩ = (.error .initMsg, ⟨1, 0⟩) :=
  ⟨rfl, rfl, rfl, rfl⟩

/-- C5 counterexample: with window size 10 (ack interval 1), reading one
byte of a queued two-byte data frame pushes an ACK counting that frame
while its payload is still partially held as the current payload
(`current = [11] ≠ []`). -/
theorem C5_counterexample :
    (readM ⟨[0, 0, 0, 7], 10, 1, 0, [[0, 0, 0, 7, 0, 2, 10, 11]], false, [], false⟩ 1 0 0).2.2
        = [ackWithFrames [0, 0, 0, 7] 1] ∧
    (readM ⟨[0, 0, 0, 7], 10, 1, 0, [[0, 0, 0, 7, 0, 2, 10, 11]], false, [], false⟩ 1 0 0).2.1.current
        = [11] ∧
    ([11] : List Nat) ≠ [] := by
  decide

/-- C5 (amended): the unacked counter is incremented exactly when a frame
is dequeued and replaces the current payload, and at each such replacement
the previous current payload has already been fully consumed (the recorded
previous `current` is empty at every increment); the newly counted frame
itself may still be partially undelivered when an ACK is emitted. -/
theorem C5_unacked_on_dequeue (current : List Nat) (queue : List (List Nat))
    (inClosed : Bool) (unacked blen totalN deadline now : Nat) :
    ((readGo current queue inClosed unacked blen totalN deadline now []).events.all
        fun e => e.isEmpty) = true ∧
    (readGo current queue inClosed unacked blen totalN deadline now []).unacked
      = unacked
        + (readGo current queue inClosed unacked blen totalN deadline now []).events.length := by
  obtain ⟨k, hk1, hk2⟩ := readGo_events queue current inClosed unacked blen totalN deadline now []
  rw [hk1, hk2]
  constructor
  · rw [List.all_eq_true]
    intro e he
    simp only [List.nil_append] at he
    rw [List.eq_of_mem_replicate he]
    rfl
  · simp

/-- C6 code-bug evidence: `receiveBuffer.close` is idempotent, but a second
`sendBuffer.close` after a completed first close blocks forever — the first
close stopped the write timer, so the second close's
stop-and-drain idiom receives on an empty timer channel that can never
fire (`none` = the call never returns). -/
theorem C6_close_behavior :
    (∀ buf : RBuf, closeRBM (closeRBM buf) = closeRBM buf) ∧
    closeSBM newSendBufferLife = some ⟨⟨false, false⟩, false, true⟩ ∧
    closeSBM ⟨⟨false, false⟩, false, true⟩ = none := by
  refine ⟨?_, by decide, by decide⟩
  intro buf
  by_cases hb : buf.closed
  · simp [closeRBM, hb]
  · simp [closeRBM, hb]

/-- C7: when close(send_rst = true) is requested on a send buffer, the send
loop — under every schedule, with the drain completing within the budget —
forwards all previously accepted payload frames in order, then exactly one
RST frame (the 4-byte header with the type byte set to 2, nothing else),
and terminates. -/
theorem C7_rst_after_drain (header : List Nat) (s1 s2 : Nat → Bool)
    (payloads : List (List Nat)) (h4 : header.length = 4) :
    slRun header s1 s2 (payloads.length + 2) ⟨payloads, false, some true, false, []⟩
      = .terminated (payloads.map (fun p => p ++ header)
          ++ [withFrameType header frameTypeRST]) ∧
    (withFrameType header frameTypeRST).length = 4 ∧
    (withFrameType header frameTypeRST).take 1 = [frameTypeRST] := by
  refine ⟨?_, ?_, ?_⟩
  · have h := slRun_closeReq header s1 s2 payloads (payloads.length + 2) [] true false (by omega)
    simpa [rstTail] using h
  · simp [withFrameType, h4]
  · simp [withFrameType]

theorem C7_rst_after_drain_witness :
    slRun [0, 0, 0, 5] (fun _ => true) (fun _ => false) 3
        ⟨[[9]], false, some true, false, []⟩
      = .terminated ([[9]].map (fun p => p ++ [0, 0, 0, 5])
          ++ [withFrameType [0, 0, 0, 5] frameTypeRST]) ∧
    (withFrameType [0, 0, 0, 5] frameTypeRST).length = 4 ∧
    (withFrameType [0, 0, 0, 5] frameTypeRST).take 1 = [frameTypeRST] :=
  C7_rst_after_drain [0, 0, 0, 5] (fun _ => true) (fun _ => false) [[9]] (by decide)

/-- C8: if the send buffer is closing, `send` fails with a broken-pipe
error (`EPIPE`) and enqueues nothing; otherwise, with space in the
in-queue, it enqueues the payload and returns the payload's length (for a
zero deadline or a deadline not in the past); and with a zero deadline and
a full in-queue it blocks without any timeout. -/
theorem C8_send_contract (buf : SBuf) (b : List Nat) (deadline now : Nat) :
    (buf.closing = true → doSendM buf b deadline now = (.err .epipe, buf)) ∧
    (buf.closing = false → buf.queue.length < buf.capacity → (deadline = 0 ∨ now ≤ deadline) →
        doSendM buf b deadline now = (.ok b.length, { buf with queue := buf.queue ++ [b] })) ∧
    (buf.closing = false → deadline = 0 → buf.capacity ≤ buf.queue.length →
        doSendM buf b deadline now = (.blocks, buf)) := by
  refine ⟨?_, ?_, ?_⟩
  · intro h
    simp [doSendM, h]
  · intro h1 h2 h3
    by_cases hd : deadline = 0
    · simp [doSendM, h1, h2, hd]
    · have hnow : ¬ deadline < now := by omega
      simp [doSendM, h1, h2, hd, hnow]
  · intro h1 h2 h3
    have hfull : ¬ buf.queue.length < buf.capacity := by omega
    simp [doSendM, h1, h2, hfull]

theorem C8_send_contract_witness :
    doSendM ⟨true, [], 3⟩ [1, 2] 0 0 = (.err .epipe, ⟨true, [], 3⟩) ∧
    doSendM ⟨false, [], 3⟩ [1, 2] 0 0 = (.ok 2, ⟨false, [[1, 2]], 3⟩) ∧
    doSendM ⟨false, [[7]], 1⟩ [1] 0 5 = (.blocks, ⟨false, [[7]], 1⟩) := by
  refine ⟨(C8_send_contract ⟨true, [], 3⟩ [1, 2] 0 0).1 rfl, ?_, ?_⟩
  · have h := (C8_send_contract ⟨false, [], 3⟩ [1, 2] 0 0).2.1 rfl (by decide) (Or.inl rfl)
    simpa using h
  · exact (C8_send_contract ⟨false, [[7]], 1⟩ [1] 0 5).2.2 rfl rfl (by decide)

/-- C9: the ack interval equals the ceiling of windowSize divided by 10,
and on return from `read` (whenever the call returns rather than blocks),
if the unacked count at return is at least the ack interval then exactly
one ACK frame carrying that count is pushed onto the session's outbound
ACK channel and the counter is reset to zero; otherwise nothing is pushed
and the counter is unchanged. -/
theorem C9_ack_batching (header : List Nat) (w : Nat) (buf : RBuf) (blen deadline now : Nat) :
    (((newReceiveBufferM header w).ackInterval : ℤ) = ⌈(w : ℚ) / 10⌉) ∧
    ((readM buf blen deadline now).1 ≠ .blocks →
      (buf.ackInterval ≤ readUnackedAtReturn buf blen deadline now →
        (readM buf blen deadline now).2.2
            = [ackWithFrames buf.defaultHeader (readUnackedAtReturn buf blen deadline now)] ∧
        (readM buf blen deadline now).2.1.unacked = 0) ∧
      (readUnackedAtReturn buf blen deadline now < buf.ackInterval →
        (readM buf blen deadline now).2.2 = [] ∧
        (readM buf blen deadline now).2.1.unacked
            = readUnackedAtReturn buf blen deadline now)) := by
  constructor
  · simpa [newReceiveBufferM, ackIntervalOf] using ceilDiv10 w
  · intro hnb
    unfold readM readUnackedAtReturn at *
    cases hoc : (readGo buf.current buf.queue buf.inClosed buf.unacked blen 0 deadline now
        []).outcome with
    | blocks => simp [hoc] at hnb
    | ret n e =>
      simp only [hoc]
      constructor
      · intro hle
        simp [readFinish, hle]
      · intro hlt
        have hnle : ¬ buf.ackInterval
            ≤ (readGo buf.current buf.queue buf.inClosed buf.unacked blen 0 deadline now
                []).unacked := by omega
        simp [readFinish, hnle]

theorem C9_ack_batching_witness :
    ((newReceiveBufferM [0, 0, 0, 3] 20).ackInterval : ℤ) = ⌈((20 : Nat) : ℚ) / 10⌉ ∧
    (readM ⟨[0, 0, 0, 3], 10, 1, 0, [[0, 0, 0, 3, 0, 1, 42]], false, [], false⟩ 1 0 0).2.2
        = [ackWithFrames [0, 0, 0, 3]
            (readUnackedAtReturn ⟨[0, 0, 0, 3], 10, 1, 0, [[0, 0, 0, 3, 0, 1, 42]], false, [],
              false⟩ 1 0 0)] := by
  constructor
  · exact (C9_ack_batching [0, 0, 0, 3] 20
      ⟨[0, 0, 0, 3], 10, 1, 0, [], false, [], false⟩ 1 0 0).1
  · exact (((C9_ack_batching [0, 0, 0, 3] 20
      ⟨[0, 0, 0, 3], 10, 1, 0, [[0, 0, 0, 3, 0, 1, 42]], false, [], false⟩ 1 0 0).2
        (by decide)).1 (by decide)).1

/-- C10: `StreamDialer` clamps `maxStreamsPerConn` (a `uint32`): zero or any
value above `maxID = 2 ^ 24 - 1` behaves as `maxID`; any value in
`[1, maxID]` is used unchanged. -/
theorem C10_maxStreams_clamp (m : Nat) (hm : m < 2 ^ 32) :
    ((m = 0 ∨ maxID < m) → (streamDialerM m).maxStreamPerConn = maxID) ∧
    (1 ≤ m → m ≤ maxID → (streamDialerM m).maxStreamPerConn = m) := by
  constructor
  · intro h
    simp [streamDialerM, streamDialerClamp, h]
  · intro h1 h2
    have hne : ¬ (m = 0 ∨ maxID < m) := by push_neg; exact ⟨by omega, by omega⟩
    simp [streamDialerM, streamDialerClamp, hne]

theorem C10_maxStreams_clamp_witness :
    (streamDialerM 0).maxStreamPerConn = maxID ∧ (streamDialerM 5).maxStreamPerConn = 5 :=
  ⟨(C10_maxStreams_clamp 0 (by norm_num)).1 (Or.inl rfl),
   (C10_maxStreams_clamp 5 (by norm_num)).2 (by norm_num) (by decide)⟩

end Lampshade
